import Mathlib

/-!
Verification of the nexmo_exporter scrape-and-publish cycle.

Shallow embedding of `nexmo_exporter.go`: the Nexmo balance client
(`getBalance`), the Prometheus collector (`scrape`, `Collect`), exporter
construction (`NewExporter`), and startup credential loading
(`readAPIAuthCredentials`).

Conventions of the embedding:
* JSON numbers are modelled as exact rationals (`ℚ`); the concrete values the
  program handles (for example `12.5`) are exactly representable in float64,
  so no rounding behaviour is lost.
* The HTTP world seen by one `getBalance` call is an explicit value of type
  `HttpOutcome`: request construction may fail (`http.NewRequest`), the
  transport may fail (`client.Do`), or a response arrives with a status code
  and a body whose read (`ioutil.ReadAll`) may fail.
* Prometheus gauges/counters hold plain numbers; the emission channel of
  `Collect` is the list of the three sample values sent on it, in send order.
* `encoding/json`'s `Unmarshal` is modelled by a small JSON parser plus a
  field-folding decoder with Go's semantics: unknown fields are ignored,
  field names match case-insensitively, `null` leaves a field unchanged,
  a type mismatch is an error, a missing field keeps the zero value, and
  unmarshalling a top-level `null` into a struct succeeds without touching it.
-/

namespace NexmoExporter

/-! ## JSON values and a parser (model of `encoding/json` input) -/

/-- A parsed JSON document. Numbers are exact rationals. -/
inductive Json where
  | null
  | bool (b : Bool)
  | num (q : ℚ)
  | str (s : String)
  | arr (elems : List Json)
  | obj (fields : List (String × Json))
deriving Repr

/-- The `\x7b` character, written by code point to keep braces out of literals. -/
def lbrace : Char := Char.ofNat 123

/-- The `\x7d` character. -/
def rbrace : Char := Char.ofNat 125

/-- Skip JSON whitespace. -/
def skipWs : List Char → List Char
  | c :: cs =>
      if c = ' ' || c = '\n' || c = '\t' || c = '\r' then skipWs cs else c :: cs
  | [] => []

/-- Numeric value of a digit run. -/
def natOfDigits (ds : List Char) : Nat :=
  ds.foldl (fun a c => a * 10 + (c.toNat - 48)) 0

/-- Optional fractional part `.digits` of a JSON number, returned as the raw
digit run. -/
def parseFrac : List Char → Option (List Char × List Char)
  | '.' :: t =>
      let p := t.span Char.isDigit
      if p.1.isEmpty then none else some (p.1, p.2)
  | cs => some ([], cs)

/-- Optional exponent part of a JSON number, returned as (negative?, k). -/
def parseExp : List Char → Option ((Bool × Nat) × List Char)
  | c :: t =>
      if c = 'e' || c = 'E' then
        let sg : Bool × List Char :=
          match t with
          | '+' :: r => (false, r)
          | '-' :: r => (true, r)
          | r => (false, r)
        let p := sg.2.span Char.isDigit
        if p.1.isEmpty then none
        else some ((sg.1, natOfDigits p.1), p.2)
      else some ((false, 0), c :: t)
  | [] => some ((false, 0), [])

/-- Parse a JSON number from the head of the input. The rational is built
with `mkRat` over the integer mantissa and a power-of-ten denominator. -/
def parseNumber (cs : List Char) : Option (ℚ × List Char) :=
  let sg : Bool × List Char :=
    match cs with
    | '-' :: t => (true, t)
    | _ => (false, cs)
  let p := sg.2.span Char.isDigit
  if p.1.isEmpty then none
  else
    match parseFrac p.2 with
    | none => none
    | some (fs, r2) =>
        match parseExp r2 with
        | none => none
        | some ((eneg, k), r3) =>
            let m : Nat := natOfDigits p.1 * 10 ^ fs.length + natOfDigits fs
            let num : Int := if sg.1 then -(m : Int) else (m : Int)
            let q : ℚ :=
              if eneg then mkRat num (10 ^ fs.length * 10 ^ k)
              else mkRat (num * ((10 ^ k : Nat) : Int)) (10 ^ fs.length)
            some (q, r3)

/-- One escaped character after a backslash in a JSON string (the short
escapes of the grammar; `\u` escapes are outside the model). -/
def escChar (e : Char) : Option Char :=
  if e = 'n' then some '\n'
  else if e = 't' then some '\t'
  else if e = 'r' then some '\r'
  else if e = '"' then some '"'
  else if e = '/' then some '/'
  else if e = '\\' then some '\\'
  else if e = 'b' then some (Char.ofNat 8)
  else if e = 'f' then some (Char.ofNat 12)
  else none

/-- Characters of a JSON string after the opening quote, up to the closing
quote. -/
def parseStringChars : List Char → Option (List Char × List Char)
  | [] => none
  | c :: cs =>
      if c = '"' then some ([], cs)
      else if c = '\\' then
        match cs with
        | [] => none
        | e :: cs2 =>
            match escChar e with
            | none => none
            | some u =>
                match parseStringChars cs2 with
                | none => none
                | some (s, r) => some (u :: s, r)
      else
        match parseStringChars cs with
        | none => none
        | some (s, r) => some (c :: s, r)

mutual

/-- Parse one JSON value from the head of the input (fuel-indexed). -/
def parseValue : Nat → List Char → Option (Json × List Char)
  | 0, _ => none
  | fuel + 1, cs =>
      match skipWs cs with
      | [] => none
      | c :: rest =>
          if c = lbrace then
            match skipWs rest with
            | d :: rest2 =>
                if d = rbrace then some (Json.obj [], rest2)
                else
                  match parseMembers fuel rest with
                  | none => none
                  | some (ms, r) => some (Json.obj ms, r)
            | [] => none
          else if c = '[' then
            match skipWs rest with
            | ']' :: rest2 => some (Json.arr [], rest2)
            | _ =>
                match parseElements fuel rest with
                | none => none
                | some (es, r) => some (Json.arr es, r)
          else if c = '"' then
            match parseStringChars rest with
            | none => none
            | some (s, r) => some (Json.str (String.mk s), r)
          else if c = 'n' then
            match rest with
            | 'u' :: 'l' :: 'l' :: r => some (Json.null, r)
            | _ => none
          else if c = 't' then
            match rest with
            | 'r' :: 'u' :: 'e' :: r => some (Json.bool true, r)
            | _ => none
          else if c = 'f' then
            match rest with
            | 'a' :: 'l' :: 's' :: 'e' :: r => some (Json.bool false, r)
            | _ => none
          else
            match parseNumber (c :: rest) with
            | none => none
            | some (q, r) => some (Json.num q, r)

/-- Parse a nonempty comma-separated member list of an object, consuming the
closing brace. -/
def parseMembers : Nat → List Char → Option (List (String × Json) × List Char)
  | 0, _ => none
  | fuel + 1, cs =>
      match skipWs cs with
      | '"' :: cs1 =>
          match parseStringChars cs1 with
          | none => none
          | some (k, cs2) =>
              match skipWs cs2 with
              | ':' :: cs3 =>
                  match parseValue fuel cs3 with
                  | none => none
                  | some (v, cs4) =>
                      match skipWs cs4 with
                      | ',' :: cs5 =>
                          match parseMembers fuel cs5 with
                          | none => none
                          | some (ms, cs6) =>
                              some ((String.mk k, v) :: ms, cs6)
                      | d :: cs5 =>
                          if d = rbrace then some ([(String.mk k, v)], cs5)
                          else none
                      | [] => none
              | _ => none
      | _ => none

/-- Parse a nonempty comma-separated element list of an array, consuming the
closing bracket. -/
def parseElements : Nat → List Char → Option (List Json × List Char)
  | 0, _ => none
  | fuel + 1, cs =>
      match parseValue fuel cs with
      | none => none
      | some (v, cs1) =>
          match skipWs cs1 with
          | ',' :: cs2 =>
              match parseElements fuel cs2 with
              | none => none
              | some (es, cs3) => some (v :: es, cs3)
          | ']' :: cs2 => some ([v], cs2)
          | _ => none

end

/-- Parse a complete JSON document: one value, then only whitespace. -/
def Json.parse (s : String) : Option Json :=
  match parseValue (s.length + 1) s.toList with
  | some (j, rest) => if (skipWs rest).isEmpty then some j else none
  | none => none

/-! ## The Nexmo API client (`balanceResp`, `getBalance`) -/

/-- ASCII lower-casing of one character (enough for Go's case-insensitive
field-name matching on these ASCII names). -/
def lowerChar (c : Char) : Char :=
  if 'A' ≤ c ∧ c ≤ 'Z' then Char.ofNat (c.toNat + 32) else c

/-- ASCII lower-casing of a string, by character list. -/
def lowerStr (s : String) : String := String.mk (s.toList.map lowerChar)

/-- The upstream response struct, source lines 92-95:
`Value float64 json:"value"`, `AutoReload bool json:"autoReload"`. -/
structure balanceResp where
  Value : ℚ
  AutoReload : Bool
deriving Repr, DecidableEq

/-- Store a member into the `Value` field: a JSON number is stored, `null`
leaves the field unchanged, any other type is an unmarshal error. -/
def setValueField (b : balanceResp) : Json → Option balanceResp
  | Json.num q => some { b with Value := q }
  | Json.null => some b
  | _ => none

/-- Store a member into the `AutoReload` field: a JSON bool is stored, `null`
leaves the field unchanged, any other type is an unmarshal error. -/
def setAutoReloadField (b : balanceResp) : Json → Option balanceResp
  | Json.bool v => some { b with AutoReload := v }
  | Json.null => some b
  | _ => none

/-- Apply one JSON object member to a `balanceResp` under Go's `Unmarshal`
semantics: tag names match case-insensitively, `null` leaves the field
unchanged, a type mismatch is an error, unknown members are ignored. -/
def setBalanceField (b : balanceResp) (kv : String × Json) : Option balanceResp :=
  if lowerStr kv.1 = "value" then setValueField b kv.2
  else if lowerStr kv.1 = "autoreload" then setAutoReloadField b kv.2
  else some b

/-- Unmarshal an already parsed (or unparseable, `none`) document into a
`balanceResp`: fold the members of a top-level object over the zero value; a
top-level `null` succeeds without touching the struct; anything else is an
error. -/
def unmarshalTop : Option Json → Option balanceResp
  | some Json.null => some ⟨0, false⟩
  | some (Json.obj fields) => List.foldlM setBalanceField ⟨0, false⟩ fields
  | _ => none

/-- `json.Unmarshal(body, &balance)` for `var balance balanceResp`
(source lines 119-122). -/
def unmarshalBalanceResp (s : String) : Option balanceResp :=
  unmarshalTop (Json.parse s)

/-- Decidable equality for `Except`, used to evaluate `getBalance` on
concrete inputs. -/
instance {ε α : Type} [DecidableEq ε] [DecidableEq α] :
    DecidableEq (Except ε α) := fun a b =>
  match a, b with
  | Except.ok x, Except.ok y =>
      if h : x = y then Decidable.isTrue (congrArg Except.ok h)
      else Decidable.isFalse (fun hc => h (Except.ok.inj hc))
  | Except.error x, Except.error y =>
      if h : x = y then Decidable.isTrue (congrArg Except.error h)
      else Decidable.isFalse (fun hc => h (Except.error.inj hc))
  | Except.ok _, Except.error _ =>
      Decidable.isFalse (fun hc => Except.noConfusion hc)
  | Except.error _, Except.ok _ =>
      Decidable.isFalse (fun hc => Except.noConfusion hc)

/-- Everything one `getBalance` call can observe of the outside world:
`http.NewRequest` may fail (malformed URI), `client.Do` may fail
(DNS/connect/timeout), or a response arrives with a status code and a body
whose read by `ioutil.ReadAll` may fail (`none`). -/
inductive HttpOutcome where
  | requestError
  | transportError
  | response (status : Nat) (body : Option String)
deriving Repr, DecidableEq

/-- The error kinds `getBalance` can return, one per `return 0, err` site in
source lines 97-124. -/
inductive FetchError where
  | requestBuild
  | transport
  | status (code : Nat)
  | bodyRead
  | decode
deriving Repr, DecidableEq

/-- The tail of `getBalance` after the unmarshal call (source lines 119-123):
a `json.Unmarshal` error is returned as a decode failure, otherwise the
`Value` field is the result. -/
def decodeResult : Option balanceResp → Except FetchError ℚ
  | none => Except.error FetchError.decode
  | some b => Except.ok b.Value

/-- The body-handling tail of `getBalance` (source lines 114-123): a
`ioutil.ReadAll` failure is returned, otherwise the body is unmarshalled. -/
def decodeBody : Option String → Except FetchError ℚ
  | none => Except.error FetchError.bodyRead
  | some s => decodeResult (unmarshalBalanceResp s)

/-- `Exporter.getBalance` (source lines 97-124): propagate request-build and
transport errors, reject any status other than 200 (the error carries the
code), propagate body-read errors, unmarshal the body, and return the
`Value` field. -/
def getBalance : HttpOutcome → Except FetchError ℚ
  | HttpOutcome.requestError => Except.error FetchError.requestBuild
  | HttpOutcome.transportError => Except.error FetchError.transport
  | HttpOutcome.response status body =>
      if status ≠ 200 then Except.error (FetchError.status status)
      else decodeBody body

/-! ## The metrics collector (`scrape`, `Collect`) -/

/-- The three mutable metric values of the `Exporter`: the `up` gauge, the
`totalScrapes` counter and the `balance` gauge. -/
structure ExporterState where
  up : ℚ
  totalScrapes : ℕ
  balance : ℚ
deriving Repr, DecidableEq

/-- `e.totalScrapes.Inc()`, the first statement of `scrape`. -/
def bumpScrapes (s : ExporterState) : ExporterState :=
  { s with totalScrapes := s.totalScrapes + 1 }

/-- The remainder of `scrape` after the counter bump: on error set `up` to 0
and return (the `balance` gauge is not touched); on success set `balance` to
the fetched value, then `up` to 1. -/
def applyFetch (s : ExporterState) (w : HttpOutcome) : ExporterState :=
  match getBalance w with
  | Except.error _ => { s with up := 0 }
  | Except.ok v => { { s with balance := v } with up := 1 }

/-- `Exporter.scrape` (source lines 76-88) as a state transformer over the
outcome `w` of its one HTTP interaction. -/
def scrape (s : ExporterState) (w : HttpOutcome) : ExporterState :=
  applyFetch (bumpScrapes s) w

/-- `Exporter.Collect` (source lines 65-74) minus the lock (treated in the
concurrency model below): run `scrape`, then send the three metric values on
the channel, in source order `up`, `totalScrapes`, `balance`. Returns the new
state and the list of sample values sent. -/
def Collect (s : ExporterState) (w : HttpOutcome) : ExporterState × List ℚ :=
  let s1 := scrape s w
  (s1, [s1.up, (s1.totalScrapes : ℚ), s1.balance])

/-! ## Exporter construction (`NewExporter`) -/

/-- The name/help/namespace metadata of one Prometheus metric. -/
structure MetricOpts where
  Namespace : String
  Name : String
  Help : String
deriving Repr, DecidableEq

/-- The static configuration part of the `Exporter` struct: the request URI,
the client timeout and the three metric descriptors. -/
structure ExporterConfig where
  URI : String
  timeout : ℕ
  upOpts : MetricOpts
  totalScrapesOpts : MetricOpts
  balanceOpts : MetricOpts
deriving Repr, DecidableEq

/-- `NewExporter` (source lines 30-52): concatenates the URI from its raw
inputs (no escaping) and always returns an initialized exporter and a `nil`
error, modelled as `Except.ok`. -/
def NewExporter (apiUrl key secret ns : String) (timeout : ℕ) :
    Except String ExporterConfig :=
  Except.ok
    { URI := apiUrl ++ "/account/get-balance/" ++ key ++ "/" ++ secret
      timeout := timeout
      upOpts :=
        { Namespace := ns, Name := "up"
          Help := "Was the last scrape of nexmo successful." }
      totalScrapesOpts :=
        { Namespace := ns, Name := "exporter_total_scrapes"
          Help := "Current total nexmo scrapes." }
      balanceOpts :=
        { Namespace := ns, Name := "balance"
          Help := "Nexmo balance in euros." } }

/-! ## Startup credential loading (`readAPIAuthCredentials`) -/

/-- `APICredentials` (source lines 129-132). The struct has no json tags, so
`Unmarshal` matches the exported field names, case-insensitively. -/
structure APICredentials where
  APIKey : String
  APISecret : String
deriving Repr, DecidableEq

/-- Apply one JSON object member to `APICredentials` as the ignored
`json.Unmarshal` call does: well-typed matching members are stored, anything
else leaves the struct alone (the error `Unmarshal` would report is discarded
by the caller). -/
def setCredField (c : APICredentials) (kv : String × Json) : APICredentials :=
  if lowerStr kv.1 = "apikey" then
    match kv.2 with
    | Json.str s => { c with APIKey := s }
    | _ => c
  else if lowerStr kv.1 = "apisecret" then
    match kv.2 with
    | Json.str s => { c with APISecret := s }
    | _ => c
  else c

/-- The net effect on `credentialsData` of
`json.Unmarshal(jsonData, &credentialsData)` with its error ignored
(source line 146): start from the zero value and store whatever well-typed
members a top-level object has; any parse failure or type mismatch leaves
the rest of the zero value in place. -/
def unmarshalCredentials (s : String) : APICredentials :=
  match Json.parse s with
  | some (Json.obj fields) => fields.foldl setCredField ⟨"", ""⟩
  | _ => ⟨"", ""⟩

/-- Result of `ioutil.ReadFile("/app/credentials/nexmo.json")`: either an
error or the file's content. -/
inductive FileReadResult where
  | err
  | ok (content : String)
deriving Repr, DecidableEq

/-- What startup does with the credential file: `log.Fatal` terminates the
process with a non-zero exit status before any listener is bound, or startup
proceeds with the decoded credentials. -/
inductive StartupStep where
  | fatalExit
  | proceed (c : APICredentials)
deriving Repr, DecidableEq

/-- `readAPIAuthCredentials` (source lines 137-151): a read error is fatal
(`log.Fatal` exits). On a successful read the `json.Unmarshal` error is
ignored and startup proceeds with whatever the unmarshal left in the struct. -/
def readAPIAuthCredentials : FileReadResult → StartupStep
  | FileReadResult.err => StartupStep.fatalExit
  | FileReadResult.ok s => StartupStep.proceed (unmarshalCredentials s)

/-! ## Claims about one collection pass -/

/-- Helper: `applyFetch` never touches the `totalScrapes` counter. -/
theorem applyFetch_totalScrapes (s : ExporterState) (w : HttpOutcome) :
    (applyFetch s w).totalScrapes = s.totalScrapes := by
  unfold applyFetch
  cases getBalance w <;> rfl

/-- C1: in a collection pass whose balance fetch fails (any error kind),
`up` is set to 0 and `balance` keeps its prior value: the last successful
value is never reset. -/
theorem scrape_failure_preserves_balance (s : ExporterState) (w : HttpOutcome)
    (e : FetchError) (h : getBalance w = Except.error e) :
    (scrape s w).up = 0 ∧ (scrape s w).balance = s.balance := by
  unfold scrape applyFetch bumpScrapes
  rw [h]
  exact ⟨rfl, rfl⟩

/-- Witness for C1: a transport failure on a state with balance 7 leaves the
balance at 7 and reports `up = 0`. -/
theorem scrape_failure_preserves_balance_witness :
    getBalance HttpOutcome.transportError = Except.error FetchError.transport ∧
    (scrape ⟨1, 5, 7⟩ HttpOutcome.transportError).up = 0 ∧
    (scrape ⟨1, 5, 7⟩ HttpOutcome.transportError).balance = 7 :=
  ⟨rfl,
    (scrape_failure_preserves_balance ⟨1, 5, 7⟩ HttpOutcome.transportError
      FetchError.transport rfl).1,
    (scrape_failure_preserves_balance ⟨1, 5, 7⟩ HttpOutcome.transportError
      FetchError.transport rfl).2⟩

/-- C2: in a collection pass whose balance fetch succeeds, `up` ends at 1 and
`balance` ends at the fetched value. -/
theorem scrape_success_sets_balance (s : ExporterState) (w : HttpOutcome)
    (v : ℚ) (h : getBalance w = Except.ok v) :
    (scrape s w).up = 1 ∧ (scrape s w).balance = v := by
  unfold scrape applyFetch bumpScrapes
  rw [h]
  exact ⟨rfl, rfl⟩

/-- Witness for C2: a 200 response with body `null` fetches 0, and the pass
ends with `up = 1` and `balance = 0`. -/
theorem scrape_success_sets_balance_witness :
    getBalance (HttpOutcome.response 200 (some "null")) = Except.ok 0 ∧
    (scrape ⟨0, 5, 7⟩ (HttpOutcome.response 200 (some "null"))).up = 1 ∧
    (scrape ⟨0, 5, 7⟩ (HttpOutcome.response 200 (some "null"))).balance = 0 :=
  ⟨by decide,
    (scrape_success_sets_balance ⟨0, 5, 7⟩ (HttpOutcome.response 200 (some "null"))
      0 (by decide)).1,
    (scrape_success_sets_balance ⟨0, 5, 7⟩ (HttpOutcome.response 200 (some "null"))
      0 (by decide)).2⟩

/-- C3: every collection pass, successful or not, increments `totalScrapes`
by exactly 1 (the bump happens before the fetch result is inspected), and the
full `Collect` pass changes it by exactly that 1; no other operation of the
embedding takes or returns an `ExporterState`, so nothing else changes it. -/
theorem scrape_increments_totalScrapes (s : ExporterState) (w : HttpOutcome) :
    (scrape s w).totalScrapes = s.totalScrapes + 1 ∧
    (Collect s w).1.totalScrapes = s.totalScrapes + 1 := by
  have h : (scrape s w).totalScrapes = s.totalScrapes + 1 := by
    unfold scrape
    rw [applyFetch_totalScrapes]
    rfl
  exact ⟨h, h⟩

/-- C6: every collection pass completes and sends exactly the three samples
`up`, `totalScrapes`, `balance` (in that order) on the channel, whatever the
fetch outcome `w` was — a fetch error never prevents emission. -/
theorem Collect_always_emits_three_samples (s : ExporterState) (w : HttpOutcome) :
    (Collect s w).2 =
      [(Collect s w).1.up, ((Collect s w).1.totalScrapes : ℚ),
        (Collect s w).1.balance] ∧
    (Collect s w).2.length = 3 :=
  ⟨rfl, rfl⟩

/-- C7: with HTTP status 200 and the upstream body
`\x7b"value": 12.5, "autoReload": false\x7d`, the fetch returns exactly the
value 12.5, and the pass stores exactly 12.5 in `balance`. -/
theorem getBalance_roundtrip_12_5 :
    getBalance (HttpOutcome.response 200
        (some "\x7b\"value\": 12.5, \"autoReload\": false\x7d")) =
      Except.ok (12.5 : ℚ) ∧
    ∀ s : ExporterState,
      (scrape s (HttpOutcome.response 200
          (some "\x7b\"value\": 12.5, \"autoReload\": false\x7d"))).balance =
        (12.5 : ℚ) := by
  have hq : (mkRat 25 2 : ℚ) = (12.5 : ℚ) := by
    rw [Rat.mkRat_eq_div]; norm_num
  have h : getBalance (HttpOutcome.response 200
        (some "\x7b\"value\": 12.5, \"autoReload\": false\x7d")) =
      Except.ok (mkRat 25 2) := by decide
  rw [hq] at h
  refine ⟨h, fun s => ?_⟩
  unfold scrape applyFetch bumpScrapes
  rw [h]

/-- C10: `NewExporter` cannot fail: for every combination of inputs it
returns an exporter (Go: non-nil pointer, nil error) whose URI is the raw
unescaped concatenation of the base URL, the fixed path, the key and the
secret, so the error-check branch in `main` after the call is unreachable. -/
theorem NewExporter_never_fails (apiUrl key secret ns : String) (timeout : ℕ) :
    ∃ cfg : ExporterConfig,
      NewExporter apiUrl key secret ns timeout = Except.ok cfg ∧
      cfg.URI = apiUrl ++ "/account/get-balance/" ++ key ++ "/" ++ secret :=
  ⟨_, rfl, rfl⟩

/-! ## Startup credential loading and the error taxonomy of the fetch -/

/-- C4 (evaluation at the failing input): the content `\x7b` is malformed
JSON, yet `readAPIAuthCredentials` does not exit — the `json.Unmarshal` error
of source line 146 is discarded, and startup proceeds with zero-value
credentials. Only a file-read error is fatal. -/
theorem readAPIAuthCredentials_malformed_not_fatal :
    Json.parse "\x7b" = none ∧
    readAPIAuthCredentials (FileReadResult.ok "\x7b") =
      StartupStep.proceed ⟨"", ""⟩ ∧
    readAPIAuthCredentials FileReadResult.err = StartupStep.fatalExit :=
  ⟨rfl, by decide, rfl⟩

/-- Written from the spec's words (section 4.1 / 7): the fetch fails exactly
when the transport fails, the HTTP status is not 200, the body read fails, or
the body is malformed JSON. (The spec's taxonomy has no case for a request
that cannot even be built.) -/
def specFetchFailure : HttpOutcome → Prop
  | HttpOutcome.requestError => False
  | HttpOutcome.transportError => True
  | HttpOutcome.response st body =>
      st ≠ 200 ∨ body = none ∨
        ∃ s, body = some s ∧ unmarshalBalanceResp s = none

/-- Unfolding equation for `getBalance` on a response. -/
theorem getBalance_response (st : Nat) (body : Option String) :
    getBalance (HttpOutcome.response st body) =
      if st ≠ 200 then Except.error (FetchError.status st)
      else decodeBody body := rfl

/-- Unfolding equation for `decodeBody` on a present body. -/
theorem decodeBody_some (s : String) :
    decodeBody (some s) = decodeResult (unmarshalBalanceResp s) := rfl

/-- C5 (counterexample): when `http.NewRequest` fails (source lines 98-101;
reachable, since the URI embeds the unescaped key and secret), `getBalance`
returns an error although none of the spec's listed failure conditions
holds. -/
theorem getBalance_error_outside_spec_taxonomy :
    getBalance HttpOutcome.requestError = Except.error FetchError.requestBuild ∧
    specFetchFailure HttpOutcome.requestError = False :=
  ⟨rfl, rfl⟩

/-- C5 (amended): `getBalance` returns an error if and only if the request
cannot be built, the transport fails, the status is not 200, the body read
fails, or the body is malformed JSON; otherwise it returns the parsed
balance value. -/
theorem getBalance_error_characterization (w : HttpOutcome) :
    ((∃ e, getBalance w = Except.error e) ↔
      (w = HttpOutcome.requestError ∨ specFetchFailure w)) ∧
    (∀ st body, w = HttpOutcome.response st body → st = 200 →
      ∀ s, body = some s →
        ∀ b, unmarshalBalanceResp s = some b →
          getBalance w = Except.ok b.Value) := by
  constructor
  · cases w with
    | requestError =>
        exact ⟨fun _ => Or.inl rfl, fun _ => ⟨FetchError.requestBuild, rfl⟩⟩
    | transportError =>
        exact ⟨fun _ => Or.inr True.intro, fun _ => ⟨FetchError.transport, rfl⟩⟩
    | response st body =>
        rw [getBalance_response]
        by_cases hst : st = 200
        · subst hst
          rw [if_neg (fun hc => hc rfl)]
          cases body with
          | none =>
              exact ⟨fun _ => Or.inr (Or.inr (Or.inl rfl)),
                fun _ => ⟨FetchError.bodyRead, rfl⟩⟩
          | some s =>
              rw [decodeBody_some]
              cases hu : unmarshalBalanceResp s with
              | none =>
                  exact ⟨fun _ => Or.inr (Or.inr (Or.inr ⟨s, rfl, hu⟩)),
                    fun _ => ⟨FetchError.decode, rfl⟩⟩
              | some b =>
                  constructor
                  · intro hex
                    rcases hex with ⟨e, he⟩
                    exact absurd he (by simp [decodeResult])
                  · intro hcond
                    rcases hcond with hreq | hspec
                    · exact absurd hreq (by simp)
                    · rcases hspec with h200 | hnone | ⟨s2, hs2, hu2⟩
                      · exact absurd rfl h200
                      · exact absurd hnone (by simp)
                      · rw [Option.some.inj hs2] at hu
                        rw [hu] at hu2
                        exact absurd hu2 (by simp)
        · rw [if_pos hst]
          exact ⟨fun _ => Or.inr (Or.inl hst),
            fun _ => ⟨FetchError.status st, rfl⟩⟩
  · intro st body hw h200 s hs b hb
    subst hw h200 hs
    rw [getBalance_response, if_neg (fun hc => hc rfl), decodeBody_some, hb]
    rfl

/-- Witness for C5: at a transport failure the amended characterization
yields a concrete error. -/
theorem getBalance_error_characterization_witness :
    ∃ e, getBalance HttpOutcome.transportError = Except.error e :=
  ((getBalance_error_characterization HttpOutcome.transportError).1).mpr
    (Or.inr True.intro)

/-! ## Missing `value` field in a 200 body -/

/-- Does a parsed JSON document contain a member matching the tag `value`
(Go matches tags case-insensitively)? -/
def hasValueMember : Json → Bool
  | Json.obj fields => fields.any (fun kv => lowerStr kv.1 == "value")
  | _ => false

/-- Helper: storing (or skipping) the `AutoReload` member never changes the
`Value` field. -/
theorem setAutoReloadField_preserves_Value (b b1 : balanceResp) (j : Json)
    (h : setAutoReloadField b j = some b1) : b1.Value = b.Value := by
  cases j with
  | bool v => rw [← Option.some.inj h]
  | null => rw [← Option.some.inj h]
  | num q => exact Option.noConfusion h
  | str s2 => exact Option.noConfusion h
  | arr es => exact Option.noConfusion h
  | obj fs => exact Option.noConfusion h

/-- Helper: a member whose name does not match `value` never changes the
`Value` field. -/
theorem setBalanceField_preserves_Value (b b1 : balanceResp)
    (kv : String × Json) (hk : ¬ lowerStr kv.1 = "value")
    (h : setBalanceField b kv = some b1) : b1.Value = b.Value := by
  unfold setBalanceField at h
  rw [if_neg hk] at h
  by_cases h2 : lowerStr kv.1 = "autoreload"
  · rw [if_pos h2] at h
    exact setAutoReloadField_preserves_Value b b1 kv.2 h
  · rw [if_neg h2] at h
    rw [← Option.some.inj h]

/-- Helper: folding members none of which match `value` leaves the `Value`
field at its starting value. -/
theorem foldlM_setBalanceField_no_value (fields : List (String × Json)) :
    ∀ b b1 : balanceResp, (∀ kv ∈ fields, ¬ lowerStr kv.1 = "value") →
      List.foldlM setBalanceField b fields = some b1 → b1.Value = b.Value := by
  induction fields with
  | nil =>
      intro b b1 _ h
      simp only [List.foldlM_nil, Option.pure_def, Option.some.injEq] at h
      rw [← h]
  | cons kv t ih =>
      intro b b1 hv h
      rw [List.foldlM_cons] at h
      cases hf : setBalanceField b kv with
      | none => rw [hf] at h; simp at h
      | some b2 =>
          rw [hf] at h
          have h2 : List.foldlM setBalanceField b2 t = some b1 := h
          have ht := ih b2 b1
            (fun kv2 hm => hv kv2 (List.mem_cons_of_mem _ hm)) h2
          rw [ht]
          exact setBalanceField_preserves_Value b b2 kv
            (hv kv (List.mem_cons_self _ _)) hf

/-- C9 (counterexample): the body `\x7b"autoReload": 1\x7d` is valid JSON,
is an object with no `value` member, yet the fetch fails with a decode error
(the `autoReload` member has the wrong type), so the pass sets `up` to 0 —
not `up = 1` with `balance = 0` as the claim states for every such body. -/
theorem getBalance_missing_value_not_always_ok :
    (Json.parse "\x7b\"autoReload\": 1\x7d").isSome = true ∧
    (Json.parse "\x7b\"autoReload\": 1\x7d").map hasValueMember = some false ∧
    getBalance (HttpOutcome.response 200 (some "\x7b\"autoReload\": 1\x7d")) =
      Except.error FetchError.decode ∧
    (scrape ⟨1, 5, 7⟩
        (HttpOutcome.response 200 (some "\x7b\"autoReload\": 1\x7d"))).up = 0 :=
  ⟨by decide, by decide, by decide, by decide⟩

/-- C9 (amended): for every 200 response whose body is a valid JSON object
with no member matching `value` and whose members all unmarshal (well-typed
or unknown), the fetch succeeds with value 0 — a missing field is not a
decode error — and the pass ends with `up = 1` and `balance = 0`. -/
theorem getBalance_missing_value_defaults_zero (s : String)
    (fields : List (String × Json))
    (hp : Json.parse s = some (Json.obj fields))
    (hv : ∀ kv ∈ fields, ¬ lowerStr kv.1 = "value")
    (b : balanceResp)
    (hd : List.foldlM setBalanceField ⟨0, false⟩ fields = some b) :
    getBalance (HttpOutcome.response 200 (some s)) = Except.ok 0 ∧
    ∀ st : ExporterState,
      (scrape st (HttpOutcome.response 200 (some s))).up = 1 ∧
      (scrape st (HttpOutcome.response 200 (some s))).balance = 0 := by
  have hb : b.Value = 0 := foldlM_setBalanceField_no_value fields ⟨0, false⟩ b hv hd
  have hu : unmarshalBalanceResp s = some b := by
    unfold unmarshalBalanceResp
    rw [hp]
    exact hd
  have hg : getBalance (HttpOutcome.response 200 (some s)) = Except.ok 0 := by
    rw [getBalance_response, if_neg (fun hc => hc rfl), decodeBody_some, hu, ← hb]
    rfl
  refine ⟨hg, fun st => ?_⟩
  constructor <;>
    · unfold scrape applyFetch bumpScrapes
      rw [hg]

/-- Witness for C9 (amended): the empty object body. -/
theorem getBalance_missing_value_defaults_zero_witness :
    getBalance (HttpOutcome.response 200 (some "\x7b\x7d")) = Except.ok 0 ∧
    (scrape ⟨0, 5, 7⟩ (HttpOutcome.response 200 (some "\x7b\x7d"))).up = 1 ∧
    (scrape ⟨0, 5, 7⟩ (HttpOutcome.response 200 (some "\x7b\x7d"))).balance = 0 :=
  ⟨(getBalance_missing_value_defaults_zero "\x7b\x7d" [] rfl (by simp)
      ⟨0, false⟩ rfl).1,
    ((getBalance_missing_value_defaults_zero "\x7b\x7d" [] rfl (by simp)
      ⟨0, false⟩ rfl).2 ⟨0, 5, 7⟩).1,
    ((getBalance_missing_value_defaults_zero "\x7b\x7d" [] rfl (by simp)
      ⟨0, false⟩ rfl).2 ⟨0, 5, 7⟩).2⟩

/-! ## Concurrency: the mutex in `Collect` (source lines 65-74)

`Collect` may be entered by many goroutines at once. Its body is
`e.mutex.Lock()`, `defer e.mutex.Unlock()`, then `scrape` (counter bump,
fetch and state update) and the three channel sends. We model each goroutine
as a program counter over these atomic statements, the mutex as an
`Option Nat` naming the holder, and the environment's fetch outcome as a
nondeterministic choice at the fetch step. -/

/-- Program counter of one goroutine running `Collect`, one value per atomic
statement of the source. -/
inductive Pc where
  | start
  | incScrapes
  | fetchBalance
  | emitUp
  | emitScrapes
  | emitBalance
  | unlockMutex
  | done
deriving Repr, DecidableEq

/-- Is a goroutine inside the lock-protected critical section: it has
returned from `Lock()` and has not yet run the deferred `Unlock()`? -/
def inCrit : Pc → Bool
  | Pc.start => false
  | Pc.done => false
  | _ => true

/-- A global configuration: the mutex holder, every goroutine's program
counter, the shared metric state, and the samples sent on the channel so
far. -/
structure Config where
  lock : Option Nat
  pcs : Nat → Pc
  state : ExporterState
  emitted : List ℚ

/-- One atomic step of goroutine `i` running `Collect`. `Lock()` proceeds
only when the mutex is free (a second collection trigger blocks); every
other statement simply executes. The fetch outcome `w` is chosen freely by
the environment. -/
inductive Step : Config → Config → Prop where
  | acquire (c : Config) (i : Nat) :
      c.pcs i = Pc.start → c.lock = none →
      Step c ⟨some i, Function.update c.pcs i Pc.incScrapes, c.state, c.emitted⟩
  | inc (c : Config) (i : Nat) :
      c.pcs i = Pc.incScrapes →
      Step c ⟨c.lock, Function.update c.pcs i Pc.fetchBalance,
        bumpScrapes c.state, c.emitted⟩
  | fetch (c : Config) (i : Nat) (w : HttpOutcome) :
      c.pcs i = Pc.fetchBalance →
      Step c ⟨c.lock, Function.update c.pcs i Pc.emitUp,
        applyFetch c.state w, c.emitted⟩
  | sendUp (c : Config) (i : Nat) :
      c.pcs i = Pc.emitUp →
      Step c ⟨c.lock, Function.update c.pcs i Pc.emitScrapes,
        c.state, c.emitted ++ [c.state.up]⟩
  | sendScrapes (c : Config) (i : Nat) :
      c.pcs i = Pc.emitScrapes →
      Step c ⟨c.lock, Function.update c.pcs i Pc.emitBalance,
        c.state, c.emitted ++ [(c.state.totalScrapes : ℚ)]⟩
  | sendBalance (c : Config) (i : Nat) :
      c.pcs i = Pc.emitBalance →
      Step c ⟨c.lock, Function.update c.pcs i Pc.unlockMutex,
        c.state, c.emitted ++ [c.state.balance]⟩
  | release (c : Config) (i : Nat) :
      c.pcs i = Pc.unlockMutex →
      Step c ⟨none, Function.update c.pcs i Pc.done, c.state, c.emitted⟩

/-- The initial configuration: mutex free, every goroutine about to call
`Collect`, nothing emitted. -/
def initConfig (s0 : ExporterState) : Config :=
  ⟨none, fun _ => Pc.start, s0, []⟩

/-- A configuration the system can reach from startup. -/
def Reachable (s0 : ExporterState) (c : Config) : Prop :=
  Relation.ReflTransGen Step (initConfig s0) c

/-- The lock discipline: any goroutine inside the critical section is the
mutex holder. -/
def lockedInv (c : Config) : Prop :=
  ∀ i, inCrit (c.pcs i) = true → c.lock = some i

/-- Helper: a step of a goroutine already inside the critical section that
stays inside it (or enters a later in-section statement) preserves the lock
discipline, whatever it does to the shared state and the channel. -/
theorem internal_step_inv {c : Config} (hc : lockedInv c) (i : Nat)
    (p p' : Pc) (hpc : c.pcs i = p) (hp : inCrit p = true)
    (st : ExporterState) (em : List ℚ) :
    lockedInv ⟨c.lock, Function.update c.pcs i p', st, em⟩ := by
  intro j hj
  show c.lock = some j
  by_cases hij : j = i
  · subst hij
    exact hc j (by rw [hpc]; exact hp)
  · simp only [Function.update_noteq hij] at hj
    exact hc j hj

/-- Helper: every step preserves the lock discipline. -/
theorem step_preserves_lockedInv {c c' : Config} (h : Step c c')
    (hc : lockedInv c) : lockedInv c' := by
  cases h with
  | acquire i hpc hl =>
      intro j hj
      show some i = some j
      by_cases hij : j = i
      · rw [hij]
      · simp only [Function.update_noteq hij] at hj
        have hcj := hc j hj
        rw [hl] at hcj
        exact Option.noConfusion hcj
  | inc i hpc =>
      exact internal_step_inv hc i Pc.incScrapes Pc.fetchBalance hpc rfl _ _
  | fetch i w hpc =>
      exact internal_step_inv hc i Pc.fetchBalance Pc.emitUp hpc rfl _ _
  | sendUp i hpc =>
      exact internal_step_inv hc i Pc.emitUp Pc.emitScrapes hpc rfl _ _
  | sendScrapes i hpc =>
      exact internal_step_inv hc i Pc.emitScrapes Pc.emitBalance hpc rfl _ _
  | sendBalance i hpc =>
      exact internal_step_inv hc i Pc.emitBalance Pc.unlockMutex hpc rfl _ _
  | release i hpc =>
      intro j hj
      by_cases hij : j = i
      · subst hij
        simp only [Function.update_same] at hj
        exact Bool.noConfusion hj
      · simp only [Function.update_noteq hij] at hj
        have h1 := hc j hj
        have h2 := hc i (by rw [hpc]; rfl)
        rw [h1] at h2
        exact absurd (Option.some.inj h2) hij

/-- Helper: the lock discipline holds in every reachable configuration. -/
theorem lockedInv_reachable (s0 : ExporterState) (c : Config)
    (h : Reachable s0 c) : lockedInv c := by
  induction h with
  | refl => intro i hi; exact Bool.noConfusion hi
  | tail hab hbc ih => exact step_preserves_lockedInv hbc ih

/-- C8: concurrent collection triggers never interleave: in every reachable
configuration, at most one goroutine is inside the lock-protected
fetch-then-update-then-emit section, so no other scrape can observe a torn
intermediate state of the three metric values. -/
theorem Collect_mutual_exclusion (s0 : ExporterState) (c : Config)
    (hr : Reachable s0 c) (i j : Nat)
    (hi : inCrit (c.pcs i) = true) (hj : inCrit (c.pcs j) = true) : i = j := by
  have hinv := lockedInv_reachable s0 c hr
  have h1 := hinv i hi
  have h2 := hinv j hj
  rw [h1] at h2
  exact Option.some.inj h2

/-- Witness for C8: after one goroutine acquires the mutex and is about to
bump the counter, it is the unique goroutine in the critical section. -/
theorem Collect_mutual_exclusion_witness :
    Reachable ⟨0, 0, 0⟩
      ⟨some 0, Function.update (fun _ => Pc.start) 0 Pc.incScrapes,
        ⟨0, 0, 0⟩, []⟩ ∧
    (0 : Nat) = 0 :=
  have hr : Reachable ⟨0, 0, 0⟩
      ⟨some 0, Function.update (fun _ => Pc.start) 0 Pc.incScrapes,
        ⟨0, 0, 0⟩, []⟩ :=
    Relation.ReflTransGen.single
      (Step.acquire (initConfig ⟨0, 0, 0⟩) 0 rfl rfl)
  ⟨hr,
    Collect_mutual_exclusion ⟨0, 0, 0⟩ _ hr 0 0 rfl rfl⟩

end NexmoExporter
